import Mathlib

/-!
Shallow embedding of the ACES geospatial ML workflow, covering:

* the patch reassembly / encode loop of `src/workflow/v2/5.prediction_dnn.py`
  (lines 149-198): flat per-pixel predictions are accumulated into six parallel
  buffers and flushed as one `tf.train.Example`-style record whenever the
  buffer reaches `patch_width * patch_height` entries;
* `Utils.filter_good_patches`, `EEUtils.export_training_data` and the
  retry-decorated `get_patch` helper of `src/aces/utils.py`.

Per-class scores (float32 in the program) are modelled as exact rationals;
class indices (`int(np.argmax(...))`) as integers.
-/

namespace Aces

/-- Semantics of `np.argmax` on a 1-d sequence: index of the first occurrence
of the maximum.  `argmaxAux l i best bv` scans `l`, where `i` is the index of
the head of `l`, and `best`/`bv` are the current best index and value. -/
def argmaxAux : List ℚ → ℕ → ℕ → ℚ → ℕ
  | [], _, best, _ => best
  | x :: xs, i, best, bv =>
      if bv < x then argmaxAux xs (i + 1) i x else argmaxAux xs (i + 1) best bv

/-- Wrapper for `argmaxAux`: `np.argmax` over a score list (`0` on the empty list, which `np.argmax`
rejects; the inference output is never empty in scope). -/
def argmax (l : List ℚ) : ℕ :=
  match l with
  | [] => 0
  | x :: xs => argmaxAux xs 1 0 x

/-- One per-pixel model output: `prediction` in the script has shape
`[1, 5]`; `scores` is its single row `prediction[0]`, so `np.argmax` over the
whole array is `argmax scores`. -/
structure Prediction where
  scores : List ℚ
deriving DecidableEq

/-- The six parallel buffers `patch[0] .. patch[5]` of the reassembly loop. -/
structure PatchBuf where
  prediction : List ℤ
  cropland_etc : List ℚ
  rice : List ℚ
  forest : List ℚ
  urban : List ℚ
  others_etc : List ℚ
deriving DecidableEq

/-- The initial buffers `patch = [[], [], [], [], [], []]` (line 149 and the reset on line 195). -/
def emptyPatch : PatchBuf :=
  { prediction := [], cropland_etc := [], rice := [], forest := [], urban := [],
    others_etc := [] }

/-- Lines 152-157: append `int(np.argmax(prediction))` and the five scores
`prediction[0][0] .. prediction[0][4]` to the six buffers.  In-scope score
vectors have length 5 (Python raises `IndexError` otherwise), so the `getD`
default is never consulted under the claims' hypotheses. -/
def appendPred (b : PatchBuf) (p : Prediction) : PatchBuf :=
  { prediction := b.prediction ++ [(argmax p.scores : ℤ)]
    cropland_etc := b.cropland_etc ++ [p.scores.getD 0 0]
    rice := b.rice ++ [p.scores.getD 1 0]
    forest := b.forest ++ [p.scores.getD 2 0]
    urban := b.urban ++ [p.scores.getD 3 0]
    others_etc := b.others_etc ++ [p.scores.getD 4 0] }

/-- A value of one named feature of a `tf.train.Example`. -/
inductive FeatureVal where
  | int64List (xs : List ℤ)
  | floatList (xs : List ℚ)
deriving DecidableEq

/-- An output record: the named-feature map of a `tf.train.Example`, in the
insertion order of the feature dict on lines 169-188.  (The byte-level
protobuf serialisation is performed by the external framework.) -/
abbrev TFExample := List (String × FeatureVal)

/-- Lines 167-190: encode the six buffers as one output record. -/
def encodeExample (b : PatchBuf) : TFExample :=
  [("prediction", FeatureVal.int64List b.prediction),
   ("cropland_etc", FeatureVal.floatList b.cropland_etc),
   ("rice", FeatureVal.floatList b.rice),
   ("forest", FeatureVal.floatList b.forest),
   ("urban", FeatureVal.floatList b.urban),
   ("others_etc", FeatureVal.floatList b.others_etc)]

/-- Number of entries held by a feature value. -/
def fvalLen : FeatureVal → ℕ
  | FeatureVal.int64List xs => xs.length
  | FeatureVal.floatList xs => xs.length

/-- Length of the named field of a record, if present. -/
def featureLen (e : TFExample) (name : String) : Option ℕ :=
  (e.lookup name).map fvalLen

/-- State of the reassembly loop: the six buffers, the 1-based `cur_patch`
counter, and the records written so far (`writer.write` calls, in order). -/
structure LoopState where
  buf : PatchBuf
  cur_patch : ℕ
  out : List TFExample
deriving DecidableEq

/-- Lines 150-196 before the loop: `patch` empty, `cur_patch = 1`, nothing
written. -/
def initState : LoopState :=
  { buf := emptyPatch, cur_patch := 1, out := [] }

/-- One iteration of the `for i, prediction in enumerate(predictions)` loop
body with `cap = patch_width * patch_height`: append to the buffers, then if
`len(patch[0]) == cap` write the encoded record and reset. -/
def stepPrediction (cap : ℕ) (s : LoopState) (p : Prediction) : LoopState :=
  let b := appendPred s.buf p
  if b.prediction.length = cap then
    { buf := emptyPatch, cur_patch := s.cur_patch + 1,
      out := s.out ++ [encodeExample b] }
  else
    { buf := b, cur_patch := s.cur_patch, out := s.out }

/-- The whole loop, from an arbitrary starting state. -/
def runLoop (cap : ℕ) (s : LoopState) (preds : List Prediction) : LoopState :=
  preds.foldl (stepPrediction cap) s

/-- The records written by the reassembly loop for a given prediction
stream. -/
def reassemble (cap : ℕ) (preds : List Prediction) : List TFExample :=
  (runLoop cap initState preds).out

/-- The buffer state obtained by appending the predictions `ps` to empty
buffers (specification-side view of the loop's buffer). -/
def bufFrom (ps : List Prediction) : PatchBuf :=
  { prediction := ps.map (fun p => (argmax p.scores : ℤ))
    cropland_etc := ps.map (fun p => p.scores.getD 0 0)
    rice := ps.map (fun p => p.scores.getD 1 0)
    forest := ps.map (fun p => p.scores.getD 2 0)
    urban := ps.map (fun p => p.scores.getD 3 0)
    others_etc := ps.map (fun p => p.scores.getD 4 0) }

/-- The record the loop writes for one full chunk of predictions. -/
def mkExample (chunk : List Prediction) : TFExample :=
  encodeExample (bufFrom chunk)

theorem bufFrom_nil : bufFrom [] = emptyPatch := rfl

theorem appendPred_bufFrom (ps : List Prediction) (p : Prediction) :
    appendPred (bufFrom ps) p = bufFrom (ps ++ [p]) := by
  simp [appendPred, bufFrom]

theorem bufFrom_prediction_length (ps : List Prediction) :
    (bufFrom ps).prediction.length = ps.length := by
  simp [bufFrom]

theorem runLoop_nil (cap : ℕ) (s : LoopState) : runLoop cap s [] = s := rfl

theorem runLoop_cons (cap : ℕ) (s : LoopState) (p : Prediction)
    (ps : List Prediction) :
    runLoop cap s (p :: ps) = runLoop cap (stepPrediction cap s p) ps := rfl

theorem runLoop_append (cap : ℕ) (s : LoopState) (l₁ l₂ : List Prediction) :
    runLoop cap s (l₁ ++ l₂) = runLoop cap (runLoop cap s l₁) l₂ := by
  simp [runLoop, List.foldl_append]

/-- While strictly below capacity the loop only accumulates: no record is
written. -/
theorem runLoop_under_cap (cap : ℕ) (ps : List Prediction) :
    ∀ (acc : List Prediction) (c : ℕ) (out : List TFExample),
      acc.length + ps.length < cap →
      runLoop cap { buf := bufFrom acc, cur_patch := c, out := out } ps =
        { buf := bufFrom (acc ++ ps), cur_patch := c, out := out } := by
  induction ps with
  | nil => intro acc c out _; simp [runLoop_nil]
  | cons p ps ih =>
      intro acc c out h
      rw [runLoop_cons]
      have hlt : acc.length + 1 ≠ cap := by
        simp [List.length_cons] at h; omega
      have hstep :
          stepPrediction cap { buf := bufFrom acc, cur_patch := c, out := out } p =
            { buf := bufFrom (acc ++ [p]), cur_patch := c, out := out } := by
        simp only [stepPrediction, appendPred_bufFrom, bufFrom_prediction_length]
        rw [if_neg (by simpa using hlt)]
      rw [hstep, ih (acc ++ [p]) c out (by simp at h ⊢; omega)]
      simp

/-- Feeding exactly the predictions that complete the current buffer writes
one record (the encoded full chunk) and resets the buffer. -/
theorem runLoop_fill (cap : ℕ) (ps : List Prediction) :
    ∀ (acc : List Prediction) (c : ℕ) (out : List TFExample),
      0 < ps.length → acc.length + ps.length = cap →
      runLoop cap { buf := bufFrom acc, cur_patch := c, out := out } ps =
        { buf := emptyPatch, cur_patch := c + 1,
          out := out ++ [mkExample (acc ++ ps)] } := by
  induction ps with
  | nil => intro acc c out hpos _; simp at hpos
  | cons p ps ih =>
      intro acc c out _ hcap
      rw [runLoop_cons]
      cases ps with
      | nil =>
          have hc : acc.length + 1 = cap := by simpa using hcap
          simp only [stepPrediction, appendPred_bufFrom, bufFrom_prediction_length]
          rw [if_pos (by simpa using hc)]
          simp [runLoop_nil, mkExample]
      | cons q qs =>
          have hne : acc.length + 1 ≠ cap := by
            simp [List.length_cons] at hcap; omega
          have hstep :
              stepPrediction cap { buf := bufFrom acc, cur_patch := c, out := out } p =
                { buf := bufFrom (acc ++ [p]), cur_patch := c, out := out } := by
            simp only [stepPrediction, appendPred_bufFrom, bufFrom_prediction_length]
            rw [if_neg (by simpa using hne)]
          rw [hstep, ih (acc ++ [p]) c out (by simp) (by simp at hcap ⊢; omega)]
          simp

/-- Consuming one full chunk from an empty buffer writes exactly its encoded
record and leaves the loop at the start of the next chunk. -/
theorem runLoop_chunk (cap : ℕ) (preds : List Prediction) (c : ℕ)
    (out : List TFExample) (hcap : 0 < cap) (hle : cap ≤ preds.length) :
    runLoop cap { buf := bufFrom [], cur_patch := c, out := out } preds =
      runLoop cap
        { buf := bufFrom [], cur_patch := c + 1,
          out := out ++ [mkExample (preds.take cap)] } (preds.drop cap) := by
  conv_lhs => rw [← List.take_append_drop cap preds]
  rw [runLoop_append]
  rw [runLoop_fill cap (preds.take cap) [] c out
    (by simp [List.length_take]; omega)
    (by simp [List.length_take]; omega)]
  rw [← bufFrom_nil]
  simp

/-- Full characterisation of the reassembly loop: after consuming `preds`,
the written records are exactly the encodings of the successive full chunks
of size `cap`, `cur_patch` has advanced once per chunk, and the buffer holds
the trailing partial chunk. -/
theorem runLoop_characterize (cap : ℕ) (hcap : 0 < cap) :
    ∀ (n : ℕ) (preds : List Prediction) (c : ℕ) (out : List TFExample),
      preds.length / cap = n →
      runLoop cap { buf := bufFrom [], cur_patch := c, out := out } preds =
        { buf := bufFrom (preds.drop (n * cap)), cur_patch := c + n,
          out := out ++ (List.range n).map
            (fun k => mkExample ((preds.drop (k * cap)).take cap)) } := by
  intro n
  induction n with
  | zero =>
      intro preds c out hn
      have hlt : preds.length < cap := by
        by_contra h
        push_neg at h
        have h1 : 1 ≤ preds.length / cap := (Nat.one_le_div_iff hcap).2 h
        omega
      rw [runLoop_under_cap cap preds [] c out (by simpa using hlt)]
      simp
  | succ n ih =>
      intro preds c out hn
      have hle : cap ≤ preds.length := by
        by_contra h
        push_neg at h
        rw [Nat.div_eq_of_lt h] at hn
        omega
      rw [runLoop_chunk cap preds c out hcap hle]
      have hdrop : (preds.drop cap).length / cap = n := by
        rw [List.length_drop]
        have := Nat.div_eq_sub_div hcap hle
        omega
      rw [ih (preds.drop cap) (c + 1) (out ++ [mkExample (preds.take cap)]) hdrop]
      have hbuf : (preds.drop cap).drop (n * cap) = preds.drop ((n + 1) * cap) := by
        rw [List.drop_drop]
        congr 1
        rw [Nat.succ_mul]
        exact Nat.add_comm _ _
      have hout : (List.range (n + 1)).map
          (fun k => mkExample ((preds.drop (k * cap)).take cap)) =
          mkExample (preds.take cap) ::
            (List.range n).map
              (fun k => mkExample (((preds.drop cap).drop (k * cap)).take cap)) := by
        rw [List.range_succ_eq_map, List.map_cons, List.map_map]
        congr 1
        · simp
        · refine List.map_congr_left ?_
          intro k _
          simp only [Function.comp]
          rw [List.drop_drop]
          congr 3
          rw [Nat.succ_mul]
          exact Nat.add_comm _ _
      rw [hout, ← hbuf]
      congr 1
      · omega
      · simp

/-- The records written for a prediction stream are the encodings of its
successive full chunks of `cap` predictions, in order. -/
theorem reassemble_eq_chunks (cap : ℕ) (hcap : 0 < cap)
    (preds : List Prediction) :
    reassemble cap preds = (List.range (preds.length / cap)).map
      (fun k => mkExample ((preds.drop (k * cap)).take cap)) := by
  unfold reassemble
  rw [show initState = { buf := bufFrom [], cur_patch := 1, out := [] } from rfl,
    runLoop_characterize cap hcap (preds.length / cap) preds 1 [] rfl]
  simp

/-- After the loop, the buffers hold exactly the trailing partial chunk. -/
theorem runLoop_final_buf (cap : ℕ) (hcap : 0 < cap)
    (preds : List Prediction) :
    (runLoop cap initState preds).buf =
      bufFrom (preds.drop (preds.length / cap * cap)) := by
  rw [show initState = { buf := bufFrom [], cur_patch := 1, out := [] } from rfl,
    runLoop_characterize cap hcap (preds.length / cap) preds 1 [] rfl]

/-- All six fields of the record written for a chunk have the chunk's
length. -/
theorem featureLen_mkExample (chunk : List Prediction) :
    featureLen (mkExample chunk) "prediction" = some chunk.length ∧
    featureLen (mkExample chunk) "cropland_etc" = some chunk.length ∧
    featureLen (mkExample chunk) "rice" = some chunk.length ∧
    featureLen (mkExample chunk) "forest" = some chunk.length ∧
    featureLen (mkExample chunk) "urban" = some chunk.length ∧
    featureLen (mkExample chunk) "others_etc" = some chunk.length := by
  simp [mkExample, encodeExample, featureLen, bufFrom, fvalLen, List.lookup]

/-- Every chunk indexed below `preds.length / cap` is full. -/
theorem chunk_length_of_lt (cap : ℕ) (preds : List Prediction) (k : ℕ)
    (hcap : 0 < cap) (hk : k < preds.length / cap) :
    ((preds.drop (k * cap)).take cap).length = cap := by
  have h1 : k + 1 ≤ preds.length / cap := Nat.succ_le_of_lt hk
  have h2 : (k + 1) * cap ≤ preds.length := (Nat.le_div_iff_mul_le hcap).1 h1
  rw [Nat.succ_mul] at h2
  simp [List.length_take, List.length_drop]
  omega

/-- C1: for every `patch_width W ≥ 1`, `patch_height H ≥ 1` and declared
total patch count `P ≥ 0`, feeding exactly `P * W * H` predictions into the
reassembly/encode loop yields exactly `P` encoded records, and in every
record each of the six named fields (`prediction`, `cropland_etc`, `rice`,
`forest`, `urban`, `others_etc`) is an array of length `W * H`. -/
theorem reassemble_exact_patch_count (W H P : ℕ) (preds : List Prediction)
    (hW : 1 ≤ W) (hH : 1 ≤ H) (hlen : preds.length = P * (W * H)) :
    (reassemble (W * H) preds).length = P ∧
    ∀ e ∈ reassemble (W * H) preds,
      featureLen e "prediction" = some (W * H) ∧
      featureLen e "cropland_etc" = some (W * H) ∧
      featureLen e "rice" = some (W * H) ∧
      featureLen e "forest" = some (W * H) ∧
      featureLen e "urban" = some (W * H) ∧
      featureLen e "others_etc" = some (W * H) := by
  have hcap : 0 < W * H := Nat.mul_pos hW hH
  rw [reassemble_eq_chunks (W * H) hcap preds]
  constructor
  · simp [hlen, Nat.mul_div_cancel _ hcap]
  · intro e he
    rw [List.mem_map] at he
    obtain ⟨k, hk, rfl⟩ := he
    rw [List.mem_range] at hk
    have hfull := chunk_length_of_lt (W * H) preds k hcap hk
    have hfl := featureLen_mkExample ((preds.drop (k * (W * H))).take (W * H))
    rw [hfull] at hfl
    exact hfl

/-- Witness for the C1 theorem at `W = H = 1`, `P = 2`. -/
theorem reassemble_exact_patch_count_witness :
    (reassemble (1 * 1)
        [⟨[mkRat 1 1, 0, 0, 0, 0]⟩, ⟨[0, mkRat 1 1, 0, 0, 0]⟩]).length = 2 ∧
    ∀ e ∈ reassemble (1 * 1)
        [⟨[mkRat 1 1, 0, 0, 0, 0]⟩, ⟨[0, mkRat 1 1, 0, 0, 0]⟩],
      featureLen e "prediction" = some (1 * 1) ∧
      featureLen e "cropland_etc" = some (1 * 1) ∧
      featureLen e "rice" = some (1 * 1) ∧
      featureLen e "forest" = some (1 * 1) ∧
      featureLen e "urban" = some (1 * 1) ∧
      featureLen e "others_etc" = some (1 * 1) :=
  reassemble_exact_patch_count 1 1 2
    [⟨[mkRat 1 1, 0, 0, 0, 0]⟩, ⟨[0, mkRat 1 1, 0, 0, 0]⟩]
    (by decide) (by decide) (by decide)

/-- C2: the loop emits records in input order with no reordering: the `k`-th
record (1-based) is exactly the encoding of the predictions with input
indices `(k-1)*W*H .. k*W*H - 1`, in input order. -/
theorem reassemble_preserves_order (W H k : ℕ) (preds : List Prediction)
    (hW : 1 ≤ W) (hH : 1 ≤ H) (hk1 : 1 ≤ k)
    (hk : k ≤ (reassemble (W * H) preds).length) :
    (reassemble (W * H) preds)[k - 1]? =
      some (mkExample ((preds.drop ((k - 1) * (W * H))).take (W * H))) := by
  have hcap : 0 < W * H := Nat.mul_pos hW hH
  rw [reassemble_eq_chunks (W * H) hcap preds] at hk ⊢
  rw [List.length_map, List.length_range] at hk
  have hk' : k - 1 < preds.length / (W * H) := by omega
  simp [List.getElem?_map, List.getElem?_range, hk']

/-- Four distinct synthetic predictions used by witnesses. -/
def fourPreds : List Prediction :=
  [⟨[mkRat 1 1, 0, 0, 0, 0]⟩, ⟨[0, mkRat 1 1, 0, 0, 0]⟩,
   ⟨[0, 0, mkRat 1 1, 0, 0]⟩, ⟨[0, 0, 0, mkRat 1 1, 0]⟩]

/-- Witness for the C2 theorem: second record of a two-patch run at
`W = 2`, `H = 1`. -/
theorem reassemble_preserves_order_witness :
    (reassemble (2 * 1) fourPreds)[2 - 1]? =
      some (mkExample ((fourPreds.drop ((2 - 1) * (2 * 1))).take (2 * 1))) :=
  reassemble_preserves_order 2 1 2 fourPreds
    (by decide) (by decide) (by decide) (by decide)

/-- C4: when the prediction count is not a multiple of `W * H`, the loop
emits exactly `⌊length / (W * H)⌋` records — all of them full — and the
trailing partial buffer is silently dropped (the loop is a total function:
no error is possible). -/
theorem reassemble_drops_partial (W H : ℕ) (preds : List Prediction)
    (hW : 1 ≤ W) (hH : 1 ≤ H) (hnd : ¬ (W * H) ∣ preds.length) :
    (reassemble (W * H) preds).length = preds.length / (W * H) ∧
    ∀ e ∈ reassemble (W * H) preds,
      featureLen e "prediction" = some (W * H) := by
  have hcap : 0 < W * H := Nat.mul_pos hW hH
  rw [reassemble_eq_chunks (W * H) hcap preds]
  refine ⟨by simp, ?_⟩
  intro e he
  rw [List.mem_map] at he
  obtain ⟨k, hk, rfl⟩ := he
  rw [List.mem_range] at hk
  have hfull := chunk_length_of_lt (W * H) preds k hcap hk
  have hfl := featureLen_mkExample ((preds.drop (k * (W * H))).take (W * H))
  rw [hfull] at hfl
  exact hfl.1

/-- Witness for the C4 theorem: 3 predictions at `W = 2`, `H = 1` yield a
single record and drop the third prediction. -/
theorem reassemble_drops_partial_witness :
    (reassemble (2 * 1)
        [⟨[mkRat 1 1, 0, 0, 0, 0]⟩, ⟨[0, mkRat 1 1, 0, 0, 0]⟩,
         ⟨[0, 0, mkRat 1 1, 0, 0]⟩]).length =
      ([⟨[mkRat 1 1, 0, 0, 0, 0]⟩, ⟨[0, mkRat 1 1, 0, 0, 0]⟩,
        ⟨[0, 0, mkRat 1 1, 0, 0]⟩] : List Prediction).length / (2 * 1) ∧
    ∀ e ∈ reassemble (2 * 1)
        [⟨[mkRat 1 1, 0, 0, 0, 0]⟩, ⟨[0, mkRat 1 1, 0, 0, 0]⟩,
         ⟨[0, 0, mkRat 1 1, 0, 0]⟩],
      featureLen e "prediction" = some (2 * 1) :=
  reassemble_drops_partial 2 1
    [⟨[mkRat 1 1, 0, 0, 0, 0]⟩, ⟨[0, mkRat 1 1, 0, 0, 0]⟩,
     ⟨[0, 0, mkRat 1 1, 0, 0]⟩]
    (by decide) (by decide) (by decide)

/-- The four synthetic predictions of the spec's example scenario
(`patchDimensions = [2,2]`, `totalPatches = 1`): argmax indices 0, 1, 2, 0. -/
def examplePreds : List Prediction :=
  [⟨[mkRat 9 10, mkRat 1 20, mkRat 1 50, mkRat 1 50, mkRat 1 100]⟩,
   ⟨[mkRat 1 10, mkRat 7 10, mkRat 1 10, mkRat 1 20, mkRat 1 20]⟩,
   ⟨[mkRat 1 20, mkRat 1 20, mkRat 4 5, mkRat 1 20, mkRat 1 20]⟩,
   ⟨[mkRat 3 5, mkRat 1 10, mkRat 1 10, mkRat 1 10, mkRat 1 10]⟩]

/-- C6: with `patchDimensions = [2,2]` and `totalPatches = 1`, the four
example predictions yield exactly one record whose `prediction` field is
`[0, 1, 2, 0]` and whose five score fields each have length 4. -/
theorem reassemble_example_scenario :
    (reassemble (2 * 2) examplePreds).length = 1 ∧
    ((reassemble (2 * 2) examplePreds).headI).lookup "prediction" =
      some (FeatureVal.int64List [0, 1, 2, 0]) ∧
    featureLen (reassemble (2 * 2) examplePreds).headI "cropland_etc" = some 4 ∧
    featureLen (reassemble (2 * 2) examplePreds).headI "rice" = some 4 ∧
    featureLen (reassemble (2 * 2) examplePreds).headI "forest" = some 4 ∧
    featureLen (reassemble (2 * 2) examplePreds).headI "urban" = some 4 ∧
    featureLen (reassemble (2 * 2) examplePreds).headI "others_etc" = some 4 := by
  decide

/-- C9: throughout the loop, after processing any prediction stream, the six
buffers have equal lengths, equal to the processed count modulo `W * H`
(i.e. the buffer is flushed and reset exactly on reaching capacity), hence
never exceeding `W * H`. -/
theorem buffer_length_invariant (W H : ℕ) (preds : List Prediction)
    (hW : 1 ≤ W) (hH : 1 ≤ H) :
    ((runLoop (W * H) initState preds).buf.prediction.length =
        preds.length % (W * H) ∧
      (runLoop (W * H) initState preds).buf.cropland_etc.length =
        preds.length % (W * H) ∧
      (runLoop (W * H) initState preds).buf.rice.length =
        preds.length % (W * H) ∧
      (runLoop (W * H) initState preds).buf.forest.length =
        preds.length % (W * H) ∧
      (runLoop (W * H) initState preds).buf.urban.length =
        preds.length % (W * H) ∧
      (runLoop (W * H) initState preds).buf.others_etc.length =
        preds.length % (W * H)) ∧
    preds.length % (W * H) ≤ W * H := by
  have hcap : 0 < W * H := Nat.mul_pos hW hH
  rw [runLoop_final_buf (W * H) hcap preds]
  have hmod := Nat.div_add_mod preds.length (W * H)
  have hcomm : preds.length / (W * H) * (W * H) =
      (W * H) * (preds.length / (W * H)) := Nat.mul_comm _ _
  have hlen : (preds.drop (preds.length / (W * H) * (W * H))).length =
      preds.length % (W * H) := by
    rw [List.length_drop]
    omega
  refine ⟨⟨?_, ?_, ?_, ?_, ?_, ?_⟩, le_of_lt (Nat.mod_lt _ hcap)⟩ <;>
    · simp [bufFrom]
      omega

/-- A single synthetic prediction used by the C9 witness. -/
def onePred : List Prediction := [⟨[0, 0, 0, 0, mkRat 1 1]⟩]

/-- Witness for the C9 theorem: one prediction at `W = 2`, `H = 1` leaves a
half-full buffer. -/
theorem buffer_length_invariant_witness :
    ((runLoop (2 * 1) initState onePred).buf.prediction.length =
        onePred.length % (2 * 1) ∧
      (runLoop (2 * 1) initState onePred).buf.cropland_etc.length =
        onePred.length % (2 * 1) ∧
      (runLoop (2 * 1) initState onePred).buf.rice.length =
        onePred.length % (2 * 1) ∧
      (runLoop (2 * 1) initState onePred).buf.forest.length =
        onePred.length % (2 * 1) ∧
      (runLoop (2 * 1) initState onePred).buf.urban.length =
        onePred.length % (2 * 1) ∧
      (runLoop (2 * 1) initState onePred).buf.others_etc.length =
        onePred.length % (2 * 1)) ∧
    onePred.length % (2 * 1) ≤ 2 * 1 :=
  buffer_length_invariant 2 1 onePred (by decide) (by decide)

/-- Modelled from the spec: the repository never decodes its own output
records (the encoded file is consumed by the external imagery service), so
the decoder is taken from the spec's round-trip property — read back the six
named fields of a record, requiring the `prediction` field to be an integer
list and the five score fields to be float lists. -/
def decodeExample (e : TFExample) : Option PatchBuf :=
  match e.lookup "prediction", e.lookup "cropland_etc", e.lookup "rice",
      e.lookup "forest", e.lookup "urban", e.lookup "others_etc" with
  | some (FeatureVal.int64List pr), some (FeatureVal.floatList c),
      some (FeatureVal.floatList r), some (FeatureVal.floatList f),
      some (FeatureVal.floatList u), some (FeatureVal.floatList o) =>
        some { prediction := pr, cropland_etc := c, rice := r, forest := f,
               urban := u, others_etc := o }
  | _, _, _, _, _, _ => none

/-- C5: encoding a patch record (an integer class-index array and five score
arrays, all of length `W * H`) and decoding the result reproduces the
class-index array bit-for-bit and the five score arrays exactly (scores are
modelled as exact rationals standing for their float32 bit patterns, so
exact reproduction is in particular within float32 tolerance). -/
theorem encode_decode_roundtrip (W H : ℕ) (b : PatchBuf)
    (h0 : b.prediction.length = W * H)
    (h1 : b.cropland_etc.length = W * H)
    (h2 : b.rice.length = W * H)
    (h3 : b.forest.length = W * H)
    (h4 : b.urban.length = W * H)
    (h5 : b.others_etc.length = W * H) :
    decodeExample (encodeExample b) = some b := by
  cases b
  simp [decodeExample, encodeExample, List.lookup]

/-- Witness for the C5 theorem at `W = H = 1`. -/
theorem encode_decode_roundtrip_witness :
    decodeExample (encodeExample
      { prediction := [2], cropland_etc := [mkRat 1 20],
        rice := [mkRat 1 20], forest := [mkRat 4 5],
        urban := [mkRat 1 20], others_etc := [mkRat 1 20] }) =
      some { prediction := [2], cropland_etc := [mkRat 1 20],
             rice := [mkRat 1 20], forest := [mkRat 4 5],
             urban := [mkRat 1 20], others_etc := [mkRat 1 20] } :=
  encode_decode_roundtrip 1 1
    { prediction := [2], cropland_etc := [mkRat 1 20],
      rice := [mkRat 1 20], forest := [mkRat 4 5],
      urban := [mkRat 1 20], others_etc := [mkRat 1 20] }
    (by decide) (by decide) (by decide) (by decide) (by decide) (by decide)

/-!
Embedding of `Utils.filter_good_patches` (src/aces/utils.py lines 254-270).

Patch values are float32 in the program; they are modelled as an extended
numeric type with IEEE-style NaN and signed-infinity propagation through
addition, including overflow of the accumulating `np.sum` to a signed
infinity when the exact sum reaches the IEEE round-to-nearest float32
overflow cutoff `2^128 - 2^103`.  Rounding of in-range sums is not modelled
(in-range rounding keeps a finite float32 value finite, so it cannot change
which of NaN / infinity / finite the accumulator is, which is all
`filter_good_patches` inspects).
-/

/-- One HTTP response to `requests.get(url)`: its status code, body text and
binary content (the serialised NumPy payload). -/
structure HResponse where
  status : ℕ
  text : String
  content : String
deriving DecidableEq

/-- The two ways one attempt can fail: the explicitly raised
`exceptions.TooManyRequests(response.text)` on a 429, or the
`requests.HTTPError` from `response.raise_for_status()` on any other 4xx/5xx
status. -/
inductive FetchError where
  | tooManyRequests (text : String)
  | httpError (status : ℕ)
deriving DecidableEq

/-- Lines 149-159, one attempt: raise `TooManyRequests` on status 429,
`raise_for_status` on any other 4xx/5xx, otherwise return the payload
(`np.load` of the content, modelled as the content itself). -/
def get_patch_once (r : HResponse) : Except FetchError String :=
  if r.status = 429 then Except.error (FetchError.tooManyRequests r.text)
  else if 400 ≤ r.status ∧ r.status < 600 then
    Except.error (FetchError.httpError r.status)
  else Except.ok r.content

/-- The retry predicate of the decorator's default configuration: only the
transient rate-limit error is retried. -/
def isRetryable : FetchError → Bool
  | FetchError.tooManyRequests _ => true
  | FetchError.httpError _ => false

/-- Backoff delay before the `(n+1)`-th retry under the decorator's default
configuration (initial 1s, multiplier 2, maximum 60s). -/
def retryDelay (n : ℕ) : ℚ := min 60 ((2 : ℚ) ^ n)

/-- The `retry.Retry` driver: `elapsed` is the wall-clock time already spent
sleeping, `n` counts retries so far, and the list supplies the response to
each successive attempt.  A retryable error is retried while the budget
allows the next backoff sleep; a non-retryable error is raised immediately.
(The empty-list case cannot arise: the network supplies a response to every
attempt; the theorems' hypotheses keep it out of scope.) -/
def retryGo (timeout : ℚ) : ℚ → ℕ → List HResponse → Except FetchError String
  | _, _, [] => Except.error (FetchError.tooManyRequests "")
  | elapsed, n, r :: rest =>
      match get_patch_once r with
      | Except.ok v => Except.ok v
      | Except.error e =>
          if isRetryable e then
            if elapsed + retryDelay n ≤ timeout then
              retryGo timeout (elapsed + retryDelay n) (n + 1) rest
            else Except.error e
          else Except.error e

/-- The function `get_patch` as decorated with `retry.Retry(timeout=300)`: total retry
budget of 300 seconds. -/
def get_patch (responses : List HResponse) : Except FetchError String :=
  retryGo 300 0 0 responses

/-- Total backoff slept by `k` consecutive retries starting from retry
index `n`. -/
def sumDelays (n k : ℕ) : ℚ :=
  ((List.range k).map (fun i => retryDelay (n + i))).sum

theorem retryDelay_nonneg (n : ℕ) : 0 ≤ retryDelay n := by
  rw [retryDelay]
  have h2 : (0 : ℚ) ≤ (2 : ℚ) ^ n := pow_nonneg (by norm_num) n
  exact le_min (by norm_num) h2

theorem sumDelays_succ (n k : ℕ) :
    sumDelays n (k + 1) = retryDelay n + sumDelays (n + 1) k := by
  rw [sumDelays, sumDelays, List.range_succ_eq_map, List.map_cons, List.map_map,
    List.sum_cons]
  congr 2
  refine List.map_congr_left ?_
  intro i _
  simp only [Function.comp]
  congr 1
  omega

theorem sumDelays_nonneg (n k : ℕ) : 0 ≤ sumDelays n k := by
  induction k generalizing n with
  | zero => simp [sumDelays]
  | succ k ih =>
      rw [sumDelays_succ]
      have := retryDelay_nonneg n
      have := ih (n + 1)
      linarith

/-- Any run of all-429 attempts within the sleep budget, followed by a
successful response, returns that response's payload. -/
theorem retryGo_429_run (succ : HResponse) (hsucc : succ.status < 400) :
    ∀ (rs : List HResponse) (n : ℕ) (elapsed : ℚ),
      (∀ r ∈ rs, r.status = 429) →
      elapsed + sumDelays n rs.length ≤ 300 →
      retryGo 300 elapsed n (rs ++ [succ]) = Except.ok succ.content := by
  intro rs
  induction rs with
  | nil =>
      intro n elapsed _ _
      have h429 : ¬ succ.status = 429 := by omega
      have herr : ¬ (400 ≤ succ.status ∧ succ.status < 600) := by omega
      simp [retryGo, get_patch_once, h429, herr]
  | cons r rs ih =>
      intro n elapsed hall hbud
      have hr : r.status = 429 := hall r (List.mem_cons_self r rs)
      rw [List.length_cons, sumDelays_succ] at hbud
      have hdel : elapsed + retryDelay n ≤ 300 := by
        have := sumDelays_nonneg (n + 1) rs.length
        linarith
      have hrec := ih (n + 1) (elapsed + retryDelay n)
        (fun x hx => hall x (List.mem_cons_of_mem r hx)) (by linarith)
      simp [retryGo, get_patch_once, hr, isRetryable, hdel, hrec]

/-- C7: in the download-URL patch-extraction path, a run of HTTP 429
responses whose backoff fits the 300-second retry budget, followed by a
success, makes `get_patch` return the successful payload with no error
surfaced; any other HTTP error status is immediately fatal — the result is
that error regardless of what later responses would have said, so no retry
happens. -/
theorem get_patch_retry_spec (rs : List HResponse) (succ bad : HResponse)
    (rest : List HResponse) :
    ((∀ r ∈ rs, r.status = 429) → sumDelays 0 rs.length ≤ 300 →
      succ.status < 400 →
      get_patch (rs ++ [succ]) = Except.ok succ.content) ∧
    (bad.status ≠ 429 → 400 ≤ bad.status → bad.status < 600 →
      get_patch (bad :: rest) = Except.error (FetchError.httpError bad.status)) := by
  constructor
  · intro hall hbud hsucc
    rw [get_patch]
    exact retryGo_429_run succ hsucc rs 0 0 hall (by simpa using hbud)
  · intro h429 hlo hhi
    rw [get_patch]
    simp [retryGo, get_patch_once, h429, And.intro hlo hhi, isRetryable]

/-- Witness for the C7 theorem: three consecutive 429 responses (total
backoff 1 + 2 + 4 = 7 ≤ 300 seconds) followed by a 200 return the payload;
a 500 response is immediately fatal. -/
theorem get_patch_retry_spec_witness :
    get_patch [HResponse.mk 429 "rate" "", HResponse.mk 429 "rate" "",
        HResponse.mk 429 "rate" "", HResponse.mk 200 "ok" "npy-bytes"] =
      Except.ok "npy-bytes" ∧
    get_patch [HResponse.mk 500 "boom" "", HResponse.mk 200 "ok" "npy-bytes"] =
      Except.error (FetchError.httpError 500) := by
  have hd0 : retryDelay 0 = 1 := by rw [retryDelay]; norm_num [min_def]
  have hd1 : retryDelay 1 = 2 := by rw [retryDelay]; norm_num [min_def]
  have hd2 : retryDelay 2 = 4 := by rw [retryDelay]; norm_num [min_def]
  have hs : sumDelays 0 ([HResponse.mk 429 "rate" "", HResponse.mk 429 "rate" "",
      HResponse.mk 429 "rate" ""] : List HResponse).length ≤ 300 := by
    rw [show ([HResponse.mk 429 "rate" "", HResponse.mk 429 "rate" "",
      HResponse.mk 429 "rate" ""] : List HResponse).length = 3 from rfl]
    rw [sumDelays, show List.range 3 = [0, 1, 2] from rfl]
    simp only [List.map_cons, List.map_nil, List.sum_cons, List.sum_nil]
    norm_num [hd0, hd1, hd2]
  have h := get_patch_retry_spec
    [HResponse.mk 429 "rate" "", HResponse.mk 429 "rate" "",
     HResponse.mk 429 "rate" ""]
    (HResponse.mk 200 "ok" "npy-bytes") (HResponse.mk 500 "boom" "")
    [HResponse.mk 200 "ok" "npy-bytes"]
  exact ⟨h.1 (by decide) hs (by decide), h.2 (by decide) (by decide) (by decide)⟩

/-!
Embedding of `EEUtils.export_training_data` (src/aces/utils.py lines 84-103).

The export is modelled by the observable actions it takes: creating the
cloud-storage table-export task and optionally starting it.  The `raise
NotImplementedError(...)` branch produces an error and, by construction of
`Except`, no actions.
-/

/-- Observable export actions of `_export_to_cloud_storage`. -/
inductive ExportEffect where
  | createTableTask (description fnameStart bucket fileFormat : String)
  | startTask
deriving DecidableEq

/-- The `NotImplementedError("Only cloud export is currently supported.")`
raised for any non-"cloud" export type. -/
inductive ExportError where
  | notImplementedError (msg : String)
deriving DecidableEq

/-- Lines 91-103, `_export_to_cloud_storage` with its keyword-argument
defaults: `description` defaults to `"myExportTableTask"`, the file name
start to the description, `bucket` to `"myBucket"`, `fileFormat` to
`"TFRecord"`; the task is started iff `start_training`. -/
def export_to_cloud_storage (start_training : Bool)
    (description fnameStart bucket fileFormat : Option String) :
    List ExportEffect :=
  let d := description.getD "myExportTableTask"
  ExportEffect.createTableTask d (fnameStart.getD d) (bucket.getD "myBucket")
      (fileFormat.getD "TFRecord") ::
    (if start_training then [ExportEffect.startTask] else [])

/-- Lines 84-89, `export_training_data`: dispatch on `export_type`. -/
def export_training_data (export_type : String) (start_training : Bool)
    (description fnameStart bucket fileFormat : Option String) :
    Except ExportError (List ExportEffect) :=
  if export_type = "cloud" then
    Except.ok (export_to_cloud_storage start_training description fnameStart
      bucket fileFormat)
  else
    Except.error
      (ExportError.notImplementedError "Only cloud export is currently supported.")

/-- C8: for every `export_type` other than `"cloud"`, `export_training_data`
fails with `NotImplementedError` and performs no export action; for
`"cloud"` it delegates to the cloud-storage export path. -/
theorem export_training_data_spec (export_type : String) (start_training : Bool)
    (description fnameStart bucket fileFormat : Option String)
    (hne : export_type ≠ "cloud") :
    export_training_data export_type start_training description fnameStart
        bucket fileFormat =
      Except.error
        (ExportError.notImplementedError
          "Only cloud export is currently supported.") ∧
    export_training_data "cloud" start_training description fnameStart
        bucket fileFormat =
      Except.ok (export_to_cloud_storage start_training description fnameStart
        bucket fileFormat) := by
  constructor
  · rw [export_training_data, if_neg hne]
  · rw [export_training_data, if_pos rfl]

/-- Witness for the C8 theorem at `export_type = "drive"`. -/
theorem export_training_data_spec_witness :
    export_training_data "drive" true none none none none =
      Except.error
        (ExportError.notImplementedError
          "Only cloud export is currently supported.") ∧
    export_training_data "cloud" true none none none none =
      Except.ok (export_to_cloud_storage true none none none none) :=
  export_training_data_spec "drive" true none none none none (by decide)

end Aces
